import Mathlib

/-!
Shallow embedding of the retail-dashboard data pipeline
(`retail_dashboard.py` and `powerbi_data_processor.py`).

Tables are modelled as lists of columns of cells (for the preprocessor,
which is dtype-driven) and as lists of typed rows (for the enrichment,
aggregation and export stages, which assume the fixed retail schema).
Machine floats are modelled as rationals; pandas null markers (NaT/NaN)
as an explicit `null` cell.  The pandas date/number parsers are opaque,
so the preprocessor is parameterised over them.
-/

namespace Retail

/-! Python string helpers used by the source. -/

/-- Both-ends whitespace trim on a character list, as Python str.strip does. -/
def trimChars (l : List Char) : List Char :=
  ((l.dropWhile Char.isWhitespace).reverse.dropWhile Char.isWhitespace).reverse

/-- Python str.strip: remove surrounding whitespace from a string. -/
def pyStrip (s : String) : String := ⟨trimChars s.data⟩

/-- Characters of a string lowered, as Python str.lower does. -/
def lowerChars (s : String) : List Char := s.data.map Char.toLower

/-- Tests whether the first list is an initial segment of the second. -/
def startsWithList : List Char → List Char → Bool
  | [], _ => true
  | _ :: _, [] => false
  | a :: ps, b :: ls => a == b && startsWithList ps ls

/-- Tests whether the pattern occurs contiguously inside the list. -/
def containsSubList (pat : List Char) : List Char → Bool
  | [] => startsWithList pat []
  | b :: ls => startsWithList pat (b :: ls) || containsSubList pat ls

/-- Python membership test sub in name.lower: case-insensitive substring. -/
def containsCI (sub name : String) : Bool :=
  containsSubList (lowerChars sub) (lowerChars name)

/-! Dataframe model for the preprocessor (`preprocess_data`, retail_dashboard.py
lines 157 to 174), which dispatches on column name and dtype. -/

/-- One dataframe cell: a string, a number, a timestamp, or a null marker
(NaN/NaT). -/
inductive Cell where
  | str (s : String)
  | num (q : ℚ)
  | dt (t : ℤ)
  | null
deriving DecidableEq

/-- Pandas column dtypes relevant to the source. -/
inductive DType where
  | object
  | datetime64
  | float64
  | int64
deriving DecidableEq

/-- A named dataframe column with its dtype and cells. -/
structure Col where
  name : String
  dtype : DType
  cells : List Cell
deriving DecidableEq

/-- A dataframe: a list of columns. -/
structure Table where
  cols : List Col
deriving DecidableEq

/-- Cell-level effect of pandas to_datetime with coercing errors, given an
opaque string-to-timestamp parser: unparseable strings become null, numbers
are read as epoch offsets, timestamps and nulls pass through. -/
def pdToDatetimeCell (dparse : String → Option ℤ) : Cell → Cell
  | .str s =>
    match dparse s with
    | some t => .dt t
    | none => .null
  | .num q => .dt ⌊q⌋
  | .dt t => .dt t
  | .null => .null

/-- Cell-level effect of pandas to_numeric with coercing errors, given an
opaque string-to-number parser: unparseable strings become null, numbers pass
through, timestamps become their integer representation, nulls pass through. -/
def pdToNumericCell (nparse : String → Option ℚ) : Cell → Cell
  | .str s =>
    match nparse s with
    | some q => .num q
    | none => .null
  | .num q => .num q
  | .dt t => .num t
  | .null => .null

/-- First step of preprocess_data: strip whitespace from the column name. -/
def stripCol (c : Col) : Col := ⟨pyStrip c.name, c.dtype, c.cells⟩

/-- Second step of preprocess_data: columns whose name contains date
(case-insensitively) and whose dtype is object are parsed to datetime. -/
def dateStep (dparse : String → Option ℤ) (c : Col) : Col :=
  if containsCI "date" c.name ∧ c.dtype = DType.object then
    ⟨c.name, DType.datetime64, c.cells.map (pdToDatetimeCell dparse)⟩
  else c

/-- Third step of preprocess_data: columns whose name contains price or
amount (case-insensitively) are coerced to numeric, regardless of dtype. -/
def numStep (nparse : String → Option ℚ) (c : Col) : Col :=
  if containsCI "price" c.name ∨ containsCI "amount" c.name then
    ⟨c.name, DType.float64, c.cells.map (pdToNumericCell nparse)⟩
  else c

/-- Per-column action of preprocess_data; the three loops of the source act
on each column independently, so they compose column-wise. -/
def processCol (dparse : String → Option ℤ) (nparse : String → Option ℚ)
    (c : Col) : Col :=
  numStep nparse (dateStep dparse (stripCol c))

/-- preprocess_data (retail_dashboard.py lines 157 to 174): strip column
names, parse object date columns, coerce price and amount columns. -/
def preprocess_data (dparse : String → Option ℤ) (nparse : String → Option ℚ)
    (t : Table) : Table :=
  ⟨t.cols.map (processCol dparse nparse)⟩

/-- Recogniser for cells that are a timestamp or a null marker, the shape
produced by a coercing to_datetime. -/
def isDtOrNull : Cell → Bool
  | .dt _ => true
  | .null => true
  | _ => false

/-! Typed row model for the enrichment pipeline
(powerbi_data_processor.py, create_enhanced_datasets). -/

/-- A purchase row after preprocessing, with the fixed retail schema.
The unit_cost field is meaningful only when the table-level flag says the
column is present, mirroring the column-presence checks of the source. -/
structure PRow where
  purchase_date : ℕ
  customer_guid : String
  vendor_name : String
  product_name : String
  purchase_location : String
  quantity : ℚ
  purchase_price_w_discount : ℚ
  unit_cost : ℚ
deriving DecidableEq

/-- A purchases dataframe: rows plus column-presence flags for the two
optional columns the source tests with membership checks. -/
structure PTable where
  rows : List PRow
  hasUnitCost : Bool
  hasLocation : Bool
deriving DecidableEq

/-- Hour of day extracted from an epoch-second timestamp, as dt.hour. -/
def hourOfDate (ts : ℕ) : ℕ := ts / 3600 % 24

/-- get_time_period (powerbi_data_processor.py lines 46 to 54). -/
def get_time_period (hour : ℤ) : String :=
  if 5 ≤ hour ∧ hour < 12 then "Morning"
  else if 12 ≤ hour ∧ hour < 17 then "Afternoon"
  else if 17 ≤ hour ∧ hour < 21 then "Evening"
  else "Night"

/-- An enriched purchase row: the base row plus the derived per-row columns
of create_enhanced_datasets that the claims inspect. -/
structure ERow where
  row : PRow
  Hour : ℕ
  TimePeriod : String
  Profit : ℚ
  ProfitMargin : ℚ
deriving DecidableEq

/-- Per-row derivation of create_enhanced_datasets (powerbi_data_processor.py
lines 37, 56, 58 to 68): Hour, TimePeriod, and the financial columns, whose
formulas depend on whether the unit_cost column is present. -/
def addDerived (hasUnitCost : Bool) (r : PRow) : ERow :=
  let hr := hourOfDate r.purchase_date
  let profit : ℚ :=
    if hasUnitCost then r.purchase_price_w_discount - r.unit_cost else 0
  let margin : ℚ :=
    if hasUnitCost then
      if 0 < r.purchase_price_w_discount then
        profit / r.purchase_price_w_discount * 100
      else 0
    else 0
  ⟨r, hr, get_time_period (hr : ℤ), profit, margin⟩

/-- The enriched rows before the product-rank merge. -/
def enhanceRows (t : PTable) : List ERow := t.rows.map (addDerived t.hasUnitCost)

/-- Distinct (product_name, vendor_name) pairs: the grouping keys of the
product_stats groupby (powerbi_data_processor.py line 101). -/
def productPairs (rows : List ERow) : List (String × String) :=
  (rows.map (fun e => (e.row.product_name, e.row.vendor_name))).dedup

/-- The enriched purchases table after the product-rank merge
(powerbi_data_processor.py lines 109 to 113): a left merge keyed on
product_name alone against the per-(product, vendor) stats, so each row is
repeated once per distinct (product, vendor) pair sharing its product name;
a row with no match would be kept once.  The customer, vendor and location
merges join on their own unique groupby keys and so are row-count
preserving; they add columns no claim inspects and are not repeated here. -/
def purchases_enhanced (t : PTable) : List ERow :=
  (enhanceRows t).flatMap (fun e =>
    if ((productPairs (enhanceRows t)).filter
        (fun pr => pr.1 == e.row.product_name)).isEmpty then [e]
    else ((productPairs (enhanceRows t)).filter
        (fun pr => pr.1 == e.row.product_name)).map (fun _ => e))

/-! Aggregator model (create_summary_tables). -/

/-- Distinct vendor names of the enriched table, the vendor groupby keys. -/
def vendorKeys (rows : List ERow) : List String :=
  (rows.map (fun e => e.row.vendor_name)).dedup

/-- Sum of purchase_price_w_discount over one vendor group. -/
def vendorTotal (rows : List ERow) (v : String) : ℚ :=
  ((rows.filter (fun e => e.row.vendor_name == v)).map
    (fun e => e.row.purchase_price_w_discount)).sum

/-- The top_vendors summary (powerbi_data_processor.py lines 200 to 208),
restricted to the columns the claims inspect: vendor and TotalSales, sorted
descending by TotalSales and truncated to the top 20 rows. -/
def top_vendors (rows : List ERow) : List (String × ℚ) :=
  (((vendorKeys rows).map (fun v => (v, vendorTotal rows v))).mergeSort
    (fun a b => decide (b.2 ≤ a.2))).take 20

/-- Sum of purchase_price_w_discount over all rows of the enriched table. -/
def totalSales (rows : List ERow) : ℚ :=
  (rows.map (fun e => e.row.purchase_price_w_discount)).sum

/-- Sum of the Profit column over all rows of the enriched table. -/
def totalProfit (rows : List ERow) : ℚ := (rows.map (fun e => e.Profit)).sum

/-- The five baseline KPI metrics (powerbi_data_processor.py lines 148
to 168), as metric-name and value pairs. -/
def kpiBase (rows : List ERow) : List (String × ℚ) :=
  [("Total Sales", totalSales rows),
   ("Total Transactions", (rows.length : ℚ)),
   ("Average Basket", totalSales rows / (rows.length : ℚ)),
   ("Total Customers", (((rows.map (fun e => e.row.customer_guid)).dedup).length : ℚ)),
   ("Total Vendors", ((vendorKeys rows).length : ℚ))]

/-- The kpis summary (powerbi_data_processor.py lines 148 to 180): the five
baseline metrics, plus the two profit metrics when the input dataframe has a
Profit column. -/
def kpis (hasProfitCol : Bool) (rows : List ERow) : List (String × ℚ) :=
  kpiBase rows ++
    (if hasProfitCol then
      [("Total Profit", totalProfit rows),
       ("Profit Margin", totalProfit rows / totalSales rows * 100)]
     else [])

/-- The kpis table as produced by the export pipeline: create_summary_tables
receives purchases_enhanced, which always carries a Profit column (lines 59
to 68 add it in both branches), so the profit-block condition is true. -/
def pipelineKpis (t : PTable) : List (String × ℚ) :=
  kpis true (purchases_enhanced t)

/-! Check-in enrichment model. -/

/-- A check-in row after preprocessing. -/
structure CRow where
  customer_name : String
  checkin_date : ℕ
deriving DecidableEq

/-- An enriched check-in row with the derived columns of the source. -/
structure ECRow where
  row : CRow
  CheckinHour : ℕ
  CheckinTimePeriod : String
  TotalCheckins : ℕ
  CheckinFrequencyRank : ℕ
deriving DecidableEq

/-- Number of check-ins of one customer: the size of the groupby group. -/
def checkinFrequency (cs : List CRow) (name : String) : ℕ :=
  (cs.filter (fun c => c.customer_name == name)).length

/-- Pandas dense descending rank of a value within a list of values: one
plus the number of distinct strictly greater values. -/
def denseRankDesc (vals : List ℚ) (x : ℚ) : ℕ :=
  (vals.dedup.filter (fun v => decide (x < v))).length + 1

/-- Check-in branch of create_enhanced_datasets (powerbi_data_processor.py
lines 117 to 138): empty check-ins yield an empty enhanced table and no
derived columns; otherwise hour, time period, per-customer frequency and its
dense rank are derived, the frequency merge being one-to-one on the unique
customer_name groupby keys. -/
def create_enhanced_checkins (cs : List CRow) : List ECRow :=
  if cs.isEmpty then []
  else
    cs.map (fun c =>
      let hr := hourOfDate c.checkin_date
      ⟨c, hr, get_time_period (hr : ℤ), checkinFrequency cs c.customer_name,
        denseRankDesc
          ((cs.map (fun d => d.customer_name)).dedup.map
            (fun n => (checkinFrequency cs n : ℚ)))
          ((checkinFrequency cs c.customer_name : ℚ))⟩)

/-! Exporter model (export_for_powerbi, powerbi_data_processor.py
lines 230 to 293). -/

/-- The filenames actually written by export_for_powerbi, in write order:
purchases always, check-ins only when non-empty, the summary files in dict
insertion order with top_locations only when the location column exists,
then the two lookup tables. -/
def writtenFiles (checkinsEmpty : Bool) (hasLocation : Bool) : List String :=
  ["purchases_enhanced.csv"] ++
    (if checkinsEmpty then [] else ["checkins_enhanced.csv"]) ++
    ["kpis.csv", "hourly_sales.csv", "daily_sales.csv", "top_vendors.csv",
     "top_customers.csv"] ++
    (if hasLocation then ["top_locations.csv"] else []) ++
    ["vendor_performance.csv", "customer_performance.csv"]

/-- The files_exported field of the metadata record (powerbi_data_processor.py
lines 272 to 283): a fixed-length list whose conditional entries are the
Python expression x if cond else None, so skipped files leave a None
placeholder in the list. -/
def files_exported (checkinsEmpty : Bool) (hasLocation : Bool) :
    List (Option String) :=
  [some "purchases_enhanced.csv",
   if checkinsEmpty then none else some "checkins_enhanced.csv",
   some "kpis.csv",
   some "hourly_sales.csv",
   some "daily_sales.csv",
   some "top_vendors.csv",
   some "top_customers.csv",
   if hasLocation then some "top_locations.csv" else none,
   some "vendor_performance.csv",
   some "customer_performance.csv"]

/-- The metadata record written by export_for_powerbi (lines 264 to 284). -/
structure Metadata where
  export_timestamp : ℤ
  purchases_count : ℕ
  checkins_count : ℕ
  date_start : ℕ
  date_end : ℕ
  files : List (Option String)
deriving DecidableEq

/-- Construction of the metadata record: counts come from the enhanced
tables, the date range from min and max purchase timestamps, and the file
list keeps None placeholders for skipped files. -/
def export_metadata (now : ℤ) (t : PTable) (cs : List CRow) : Metadata :=
  let enh := purchases_enhanced t
  { export_timestamp := now
    purchases_count := enh.length
    checkins_count := if cs.isEmpty then 0 else (create_enhanced_checkins cs).length
    date_start := ((enh.map (fun e => e.row.purchase_date)).min?).getD 0
    date_end := ((enh.map (fun e => e.row.purchase_date)).max?).getD 0
    files := files_exported cs.isEmpty t.hasLocation }

/-! Loader model (retail_dashboard.py, load_data and
load_data_from_sharepoint).  The sheet-selection block is duplicated
verbatim on the two paths (lines 49 to 75 and 121 to 147); it is embedded
once.  Parsing outcomes of the host spreadsheet reader are opaque inputs. -/

/-- Sheet selection applied to a parsed workbook, a list of named sheets in
workbook order: the purchases table is the first sheet whose lowered name
contains purchase, else the first sheet of the workbook; the check-ins table
is the first sheet whose lowered name contains checkin, else an empty table.
The result is none exactly when the workbook has no sheets at all, where the
source raises an index error out of the selection block. -/
def select_sheets (wb : List (String × Table)) : Option (Table × Table) :=
  let checkins : Table :=
    match wb.find? (fun s => containsCI "checkin" s.1) with
    | some s => s.2
    | none => ⟨[]⟩
  match wb.find? (fun s => containsCI "purchase" s.1) with
  | some s => some (s.2, checkins)
  | none =>
    match wb with
    | [] => none
    | first :: _ => some (first.2, checkins)

/-- Errors a load can surface: FileNotFoundError (the distinct source
unavailable error of the source) or any other propagated exception. -/
inductive LoadError where
  | sourceUnavailable (msg : String)
  | other (msg : String)
deriving DecidableEq

/-- Outcome of the remote fetch plus workbook parse: the HTTP request failed,
or it succeeded and the multi-sheet parse either produced a workbook or
raised. -/
inductive FetchOutcome where
  | failed
  | fetched (parsed : Option (List (String × Table)))
deriving DecidableEq

/-- load_data_from_sharepoint (retail_dashboard.py lines 29 to 80): a failed
fetch raises FileNotFoundError about the download; any exception while
parsing or selecting sheets is caught by the generic handler and re-raised
as FileNotFoundError about processing, with no single-sheet fallback. -/
def load_data_from_sharepoint : FetchOutcome → Except LoadError (Table × Table)
  | .failed => .error (.sourceUnavailable "Unable to download file from SharePoint")
  | .fetched none => .error (.sourceUnavailable "Error processing SharePoint file")
  | .fetched (some wb) =>
    match select_sheets wb with
    | some res => .ok res
    | none => .error (.sourceUnavailable "Error processing SharePoint file")

/-- load_data on the local path (retail_dashboard.py lines 99 to 154), with
file existence and the two parse outcomes as opaque inputs: missing file at
both candidate paths raises FileNotFoundError; a failure of the multi-sheet
read or of sheet selection falls back to a single-sheet read treated as the
purchases table with empty check-ins; a failure of that fallback read
propagates as an ordinary exception. -/
def load_data_local (masterExists githubExists : Bool)
    (parsedMulti : Option (List (String × Table))) (parsedSingle : Option Table) :
    Except LoadError (Table × Table) :=
  if masterExists = false ∧ githubExists = false then
    .error (.sourceUnavailable "Data file not found")
  else
    match parsedMulti with
    | some wb =>
      match select_sheets wb with
      | some res => .ok res
      | none =>
        match parsedSingle with
        | some df => .ok (df, ⟨[]⟩)
        | none => .error (.other "fallback read failed")
    | none =>
      match parsedSingle with
      | some df => .ok (df, ⟨[]⟩)
      | none => .error (.other "fallback read failed")

/-! Concrete fixture inputs used by witnesses and counterexamples. -/

/-- Fixture: a one-row purchases table with a unit_cost column. -/
def tableW1 : PTable := ⟨[⟨0, "cust", "vend", "prod", "loc", 1, 10, 4⟩], true, false⟩

/-- Fixture: a one-row purchases table without a unit_cost column. -/
def tableNoCost : PTable := ⟨[⟨0, "c", "v", "p", "L", 1, 10, 0⟩], false, false⟩

/-- Fixture: 21 distinct vendor names. -/
def cxVendors : List String :=
  ["v01", "v02", "v03", "v04", "v05", "v06", "v07", "v08", "v09", "v10",
   "v11", "v12", "v13", "v14", "v15", "v16", "v17", "v18", "v19", "v20", "v21"]

/-- Fixture: one enriched row for a given vendor, selling one unit at 1. -/
def mkVendorRow (v : String) : ERow := addDerived false ⟨0, "c", v, v, "L", 1, 1, 0⟩

/-- Fixture: an enriched table with 21 distinct vendors, one sale of 1 each. -/
def cxRows4 : List ERow := cxVendors.map mkVendorRow

/-- Fixture: a small enriched table with a single vendor. -/
def rowsW4 : List ERow := [addDerived false ⟨0, "c", "v", "p", "L", 1, 5, 0⟩]

/-- Fixture: two purchase rows of the same product under two vendors. -/
def cxTableC10 : PTable :=
  ⟨[⟨0, "c1", "a", "p", "L", 1, 1, 0⟩, ⟨0, "c2", "b", "p", "L", 1, 1, 0⟩], false, false⟩

/-- Fixture: two purchase rows with distinct products under distinct vendors. -/
def tableW10 : PTable :=
  ⟨[⟨0, "c1", "a", "p1", "L", 1, 1, 0⟩, ⟨0, "c2", "b", "p2", "L", 1, 1, 0⟩], false, false⟩

/-- Fixture: a workbook with a purchase-named and a checkin-named sheet. -/
def wbW : List (String × Table) := [("Sheet Purchases", ⟨[]⟩), ("Checkin Log", ⟨[]⟩)]

/-- Fixture: a date-named column of integer dtype. -/
def cxTableC7 : Table := ⟨[⟨"date", DType.int64, [Cell.num 5]⟩]⟩

/-- Fixture: a raw table with a date-named object column and a price column. -/
def tableW7 : Table :=
  ⟨[⟨" Purchase_Date ", DType.object, [Cell.str "bad", Cell.str "ok"]⟩,
    ⟨"purchase_price_w_discount", DType.object, [Cell.str "10", Cell.str "x"]⟩]⟩

/-! Helper lemmas. -/

theorem dropWhile_self_idem {α : Type} (p : α → Bool) (l : List α) :
    (l.dropWhile p).dropWhile p = l.dropWhile p := by
  induction l with
  | nil => rfl
  | cons a l ih =>
    by_cases h : p a
    · simpa [List.dropWhile_cons, h] using ih
    · simp [List.dropWhile_cons, h]

theorem head_false_of_dropWhile_eq_self {α : Type} (p : α → Bool) (a : α) (l : List α)
    (hEq : (a :: l).dropWhile p = a :: l) : p a = false := by
  by_contra hcon
  rw [Bool.not_eq_false] at hcon
  rw [List.dropWhile_cons, if_pos hcon] at hEq
  have hlen := congrArg List.length hEq
  have hle := (List.dropWhile_sublist (l := l) p).length_le
  simp only [List.length_cons] at hlen
  omega

theorem trim_generic_idem {α : Type} (p : α → Bool) (l : List α) :
    let trim := fun m : List α => ((m.dropWhile p).reverse.dropWhile p).reverse
    trim (trim l) = trim l := by
  intro trim
  have huidem : (l.dropWhile p).dropWhile p = l.dropWhile p := dropWhile_self_idem p l
  set u := l.dropWhile p with hu
  set v := u.reverse.dropWhile p with hv
  have htrim : trim l = v.reverse := rfl
  have hpre : v.reverse <+: u := by
    have hsuf : v <:+ u.reverse := List.dropWhile_suffix p
    have h1 : v.reverse <+: u.reverse.reverse := List.reverse_prefix.mpr hsuf
    rwa [List.reverse_reverse] at h1
  have hstep1 : v.reverse.dropWhile p = v.reverse := by
    cases hvr : v.reverse with
    | nil => rfl
    | cons a t =>
      obtain ⟨r, hr⟩ := hpre
      rw [hvr] at hr
      have hfa : p a = false := by
        apply head_false_of_dropWhile_eq_self p a (t ++ r)
        rw [← List.cons_append, hr]
        exact huidem
      rw [List.dropWhile_cons, hfa]
      simp
  have hstep2 : v.reverse.reverse.dropWhile p = v := by
    rw [List.reverse_reverse, hv]
    exact dropWhile_self_idem p u.reverse
  show ((v.reverse.dropWhile p).reverse.dropWhile p).reverse = v.reverse
  rw [hstep1, hstep2]

theorem trimChars_idem (l : List Char) : trimChars (trimChars l) = trimChars l :=
  trim_generic_idem Char.isWhitespace l

theorem pyStrip_idem (s : String) : pyStrip (pyStrip s) = pyStrip s :=
  congrArg String.mk (trimChars_idem s.data)

theorem pdToNumericCell_idem (nparse : String → Option ℚ) (x : Cell) :
    pdToNumericCell nparse (pdToNumericCell nparse x) = pdToNumericCell nparse x := by
  cases x with
  | str s => cases h : nparse s <;> simp [pdToNumericCell, h]
  | num q => rfl
  | dt t => rfl
  | null => rfl

theorem pdToNumericCell_comp (nparse : String → Option ℚ) :
    pdToNumericCell nparse ∘ pdToNumericCell nparse = pdToNumericCell nparse :=
  funext (pdToNumericCell_idem nparse)

theorem isDtOrNull_pdToDatetimeCell (dparse : String → Option ℤ) (x : Cell) :
    isDtOrNull (pdToDatetimeCell dparse x) = true := by
  cases x with
  | str s => cases h : dparse s <;> simp [pdToDatetimeCell, h, isDtOrNull]
  | num q => rfl
  | dt t => rfl
  | null => rfl

theorem processCol_idem (dparse : String → Option ℤ) (nparse : String → Option ℚ) (c : Col) :
    processCol dparse nparse (processCol dparse nparse c) = processCol dparse nparse c := by
  by_cases hd : containsCI "date" (pyStrip c.name) ∧ c.dtype = DType.object <;>
    by_cases hp : containsCI "price" (pyStrip c.name) ∨ containsCI "amount" (pyStrip c.name) <;>
    simp [processCol, stripCol, dateStep, numStep, hd, hp, pyStrip_idem,
      List.map_map, pdToNumericCell_comp]
  all_goals exact fun a _ => pdToNumericCell_idem nparse (pdToDatetimeCell dparse a)

theorem addDerived_row (b : Bool) (r : PRow) : (addDerived b r).row = r := rfl

/-! Claim theorems. -/

/-- Claim C1: in create_enhanced_datasets, for every row of the purchases
table, when the unit_cost column is present Profit equals
purchase_price_w_discount minus unit_cost and ProfitMargin equals
100 times Profit over purchase_price_w_discount when the price is positive
and 0 otherwise; when the unit_cost column is absent, Profit and
ProfitMargin are 0 for every row, the columns being present either way. -/
theorem claim_C1 (t : PTable) (e : ERow) (he : e ∈ enhanceRows t) :
    (t.hasUnitCost = true →
      e.Profit = e.row.purchase_price_w_discount - e.row.unit_cost ∧
      (0 < e.row.purchase_price_w_discount →
        e.ProfitMargin = 100 * e.Profit / e.row.purchase_price_w_discount) ∧
      (¬ 0 < e.row.purchase_price_w_discount → e.ProfitMargin = 0)) ∧
    (t.hasUnitCost = false → e.Profit = 0 ∧ e.ProfitMargin = 0) := by
  rcases List.mem_map.mp he with ⟨r, hr, rfl⟩
  constructor
  · intro hu
    refine ⟨by simp [addDerived, hu], ?_, ?_⟩
    · intro hpos
      rw [addDerived_row] at hpos
      simp only [addDerived, addDerived_row, hu, if_true, hpos, if_pos]
      ring
    · intro hpos
      rw [addDerived_row] at hpos
      simp [addDerived, hu, hpos]
  · intro hu
    exact ⟨by simp [addDerived, hu], by simp [addDerived, hu]⟩

/-- Witness for C1 at a concrete one-row table with a unit_cost column. -/
theorem claim_C1_witness :
    (addDerived true ⟨0, "cust", "vend", "prod", "loc", 1, 10, 4⟩).Profit =
      (10 : ℚ) - 4 :=
  ((claim_C1 tableW1 (addDerived true ⟨0, "cust", "vend", "prod", "loc", 1, 10, 4⟩)
    (List.mem_map_of_mem _ (List.mem_singleton_self _))).1 rfl).1

/-- Claim C2: get_time_period maps every integer hour to exactly one of
Morning, Afternoon, Evening, Night, with hours in 5 to 11 mapped to
Morning, 12 to 16 to Afternoon, 17 to 20 to Evening, and every other hour
to Night; in particular 5 to Morning, 12 to Afternoon, 17 to Evening,
21 to Night and 0 to Night. -/
theorem claim_C2 (h : ℤ) :
    (get_time_period h = "Morning" ∨ get_time_period h = "Afternoon" ∨
      get_time_period h = "Evening" ∨ get_time_period h = "Night") ∧
    (get_time_period h = "Morning" ↔ 5 ≤ h ∧ h < 12) ∧
    (get_time_period h = "Afternoon" ↔ 12 ≤ h ∧ h < 17) ∧
    (get_time_period h = "Evening" ↔ 17 ≤ h ∧ h < 21) ∧
    (get_time_period h = "Night" ↔ h < 5 ∨ 21 ≤ h) ∧
    get_time_period 5 = "Morning" ∧ get_time_period 12 = "Afternoon" ∧
    get_time_period 17 = "Evening" ∧ get_time_period 21 = "Night" ∧
    get_time_period 0 = "Night" := by
  have disj : get_time_period h = "Morning" ∨ get_time_period h = "Afternoon" ∨
      get_time_period h = "Evening" ∨ get_time_period h = "Night" := by
    unfold get_time_period
    split_ifs
    exacts [Or.inl rfl, Or.inr (Or.inl rfl), Or.inr (Or.inr (Or.inl rfl)),
      Or.inr (Or.inr (Or.inr rfl))]
  have keym : get_time_period h = "Morning" ↔ 5 ≤ h ∧ h < 12 := by
    unfold get_time_period
    split_ifs with h1 h2 h3
    · exact iff_of_true rfl h1
    · exact iff_of_false (by decide) (by omega)
    · exact iff_of_false (by decide) (by omega)
    · exact iff_of_false (by decide) (by omega)
  have keya : get_time_period h = "Afternoon" ↔ 12 ≤ h ∧ h < 17 := by
    unfold get_time_period
    split_ifs with h1 h2 h3
    · exact iff_of_false (by decide) (by omega)
    · exact iff_of_true rfl h2
    · exact iff_of_false (by decide) (by omega)
    · exact iff_of_false (by decide) (by omega)
  have keye : get_time_period h = "Evening" ↔ 17 ≤ h ∧ h < 21 := by
    unfold get_time_period
    split_ifs with h1 h2 h3
    · exact iff_of_false (by decide) (by omega)
    · exact iff_of_false (by decide) (by omega)
    · exact iff_of_true rfl h3
    · exact iff_of_false (by decide) (by omega)
  have keyn : get_time_period h = "Night" ↔ h < 5 ∨ 21 ≤ h := by
    unfold get_time_period
    split_ifs with h1 h2 h3
    · exact iff_of_false (by decide) (by omega)
    · exact iff_of_false (by decide) (by omega)
    · exact iff_of_false (by decide) (by omega)
    · exact iff_of_true rfl (by omega)
  exact ⟨disj, keym, keya, keye, keyn, by decide, by decide, by decide,
    by decide, by decide⟩

/-- Witness for C2 at the boundary hour 5. -/
theorem claim_C2_witness : get_time_period 5 = "Morning" :=
  (claim_C2 5).2.1.mpr (by omega)

/-- Claim C3: preprocess_data is idempotent: preprocessing the result of
preprocessing yields an identical table (same column names, dtypes and
cells), for every input table and any choice of cell parsers. -/
theorem claim_C3 (dparse : String → Option ℤ) (nparse : String → Option ℚ) (t : Table) :
    preprocess_data dparse nparse (preprocess_data dparse nparse t) =
      preprocess_data dparse nparse t := by
  have h : ∀ cols : List Col,
      (cols.map (processCol dparse nparse)).map (processCol dparse nparse) =
        cols.map (processCol dparse nparse) := by
    intro cols
    induction cols with
    | nil => rfl
    | cons c cs ih => simp only [List.map_cons, ih, processCol_idem]
  exact congrArg Table.mk (h t.cols)

/-- Witness for C3 at a concrete table and concrete parsers. -/
theorem claim_C3_witness :
    preprocess_data (fun _ => some 0) (fun s => if s = "10" then some 10 else none)
        (preprocess_data (fun _ => some 0) (fun s => if s = "10" then some 10 else none) tableW7) =
      preprocess_data (fun _ => some 0) (fun s => if s = "10" then some 10 else none) tableW7 :=
  claim_C3 _ _ tableW7

/-- Counterexample for C7 as stated: a column named date whose dtype is
int64 passes through preprocess_data completely unparsed (its cell stays a
number, neither a timestamp nor a null marker), whereas the claim demands
that every column whose trimmed name contains date be parsed into
timestamps; the source only parses such columns when their dtype is
object. -/
theorem claim_C7_counterexample :
    (preprocess_data (fun _ => some 0) (fun _ => some 0) cxTableC7).cols =
      [⟨"date", DType.int64, [Cell.num 5]⟩] ∧
    containsCI "date" "date" = true ∧
    isDtOrNull (Cell.num 5) = false := by
  refine ⟨?_, by decide, rfl⟩
  decide

/-- Claim C7 (amended): preprocess_data maps each column independently;
it trims surrounding whitespace from every column name; every column whose
trimmed name contains date case-insensitively AND whose dtype is object is
parsed cell-wise to timestamps, unparseable cells becoming a null marker
rather than raising; every column whose trimmed name contains price or
amount case-insensitively is coerced cell-wise to numeric, unparseable
cells becoming a null marker; and the values of any other column are not
altered. -/
theorem claim_C7_amended (dparse : String → Option ℤ) (nparse : String → Option ℚ)
    (t : Table) (c : Col) :
    (preprocess_data dparse nparse t).cols = t.cols.map (processCol dparse nparse) ∧
    (processCol dparse nparse c).name = pyStrip c.name ∧
    (containsCI "date" (pyStrip c.name) = true → c.dtype = DType.object →
      containsCI "price" (pyStrip c.name) = false →
      containsCI "amount" (pyStrip c.name) = false →
      (processCol dparse nparse c).cells = c.cells.map (pdToDatetimeCell dparse) ∧
      ∀ x ∈ (processCol dparse nparse c).cells, isDtOrNull x = true) ∧
    ((containsCI "price" (pyStrip c.name) = true ∨
        containsCI "amount" (pyStrip c.name) = true) →
      ¬(containsCI "date" (pyStrip c.name) = true ∧ c.dtype = DType.object) →
      (processCol dparse nparse c).cells = c.cells.map (pdToNumericCell nparse)) ∧
    (containsCI "date" (pyStrip c.name) = false →
      containsCI "price" (pyStrip c.name) = false →
      containsCI "amount" (pyStrip c.name) = false →
      processCol dparse nparse c = ⟨pyStrip c.name, c.dtype, c.cells⟩) ∧
    (∀ s, dparse s = none → pdToDatetimeCell dparse (Cell.str s) = Cell.null) ∧
    (∀ s, nparse s = none → pdToNumericCell nparse (Cell.str s) = Cell.null) := by
  refine ⟨rfl, ?_, ?_, ?_, ?_, ?_, ?_⟩
  · simp only [processCol, numStep, dateStep, stripCol]
    split_ifs <;> rfl
  · intro h1 h2 h3 h4
    have hcells : (processCol dparse nparse c).cells =
        c.cells.map (pdToDatetimeCell dparse) := by
      simp [processCol, stripCol, dateStep, numStep, h1, h2, h3, h4]
    refine ⟨hcells, ?_⟩
    intro x hx
    rw [hcells] at hx
    rcases List.mem_map.mp hx with ⟨y, _, rfl⟩
    exact isDtOrNull_pdToDatetimeCell dparse y
  · intro hp hnd
    by_cases hdd : containsCI "date" (pyStrip c.name) = true
    · by_cases hobj : c.dtype = DType.object
      · exact absurd ⟨hdd, hobj⟩ hnd
      · rcases hp with hp | hp <;>
          simp [processCol, stripCol, dateStep, numStep, hdd, hobj, hp]
    · rw [Bool.not_eq_true] at hdd
      rcases hp with hp | hp <;>
        simp [processCol, stripCol, dateStep, numStep, hdd, hp]
  · intro h1 h2 h3
    simp [processCol, stripCol, dateStep, numStep, h1, h2, h3]
  · intro s h
    simp [pdToDatetimeCell, h]
  · intro s h
    simp [pdToNumericCell, h]

/-- Witness for C7 (amended) at a concrete object date column. -/
theorem claim_C7_witness :
    (processCol (fun _ => none) (fun _ => none)
        ⟨" Signup_Date ", DType.object, [Cell.str "bad"]⟩).cells =
      [Cell.str "bad"].map (pdToDatetimeCell (fun _ => none)) :=
  ((claim_C7_amended (fun _ => none) (fun _ => none) ⟨[]⟩
    ⟨" Signup_Date ", DType.object, [Cell.str "bad"]⟩).2.2.1
    (by decide) rfl (by decide) (by decide)).1

/-! Helper lemmas about grouped sums. -/

theorem sum_map_ite_zero {κ : Type} [DecidableEq κ] (a : κ) (x : ℚ) :
    ∀ keys : List κ, keys.Nodup → a ∈ keys →
      (keys.map (fun k => if a = k then x else 0)).sum = x := by
  intro keys
  induction keys with
  | nil => intro _ ha; cases ha
  | cons k ks ih =>
    intro hnd ha
    rcases List.nodup_cons.mp hnd with ⟨hk, hnd2⟩
    rw [List.map_cons, List.sum_cons]
    by_cases h : a = k
    · subst h
      rw [if_pos rfl]
      have hz : (ks.map fun k2 => if a = k2 then x else (0 : ℚ)) =
          ks.map (fun _ => 0) := by
        apply List.map_congr_left
        intro k2 hk2
        rw [if_neg]
        rintro rfl
        exact hk hk2
      rw [hz]
      simp
    · rw [if_neg h]
      have ha2 : a ∈ ks := by
        rcases List.mem_cons.mp ha with h1 | h1
        · exact absurd h1 h
        · exact h1
      rw [ih hnd2 ha2, zero_add]

theorem sum_map_add_distrib {κ : Type} (f g : κ → ℚ) :
    ∀ l : List κ, (l.map (fun k => f k + g k)).sum = (l.map f).sum + (l.map g).sum := by
  intro l
  induction l with
  | nil => simp
  | cons a l ih =>
    simp only [List.map_cons, List.sum_cons, ih]
    ring

theorem sum_partition {β κ : Type} [DecidableEq κ] [BEq κ] [LawfulBEq κ]
    (keys : List κ) (key : β → κ) (val : β → ℚ) (hnd : keys.Nodup) :
    ∀ rows : List β, (∀ r ∈ rows, key r ∈ keys) →
      (keys.map (fun k => ((rows.filter (fun r => key r == k)).map val).sum)).sum
        = (rows.map val).sum := by
  intro rows
  induction rows with
  | nil => intro _; simp
  | cons r rest ih =>
    intro hcov
    have hr : key r ∈ keys := hcov r (List.mem_cons_self r rest)
    have hrest : ∀ x ∈ rest, key x ∈ keys :=
      fun x hx => hcov x (List.mem_cons_of_mem r hx)
    have hsplit : ∀ k, ((List.filter (fun x => key x == k) (r :: rest)).map val).sum
        = (if key r = k then val r else 0) +
          ((rest.filter (fun x => key x == k)).map val).sum := by
      intro k
      by_cases h : key r = k
      · rw [List.filter_cons_of_pos (by simpa using h), List.map_cons,
          List.sum_cons, if_pos h]
      · rw [List.filter_cons_of_neg (by simpa using h), if_neg h, zero_add]
    calc (keys.map fun k =>
            ((List.filter (fun x => key x == k) (r :: rest)).map val).sum).sum
        = (keys.map fun k => (if key r = k then val r else 0) +
            ((rest.filter (fun x => key x == k)).map val).sum).sum :=
          congrArg List.sum (List.map_congr_left (fun k _ => hsplit k))
      _ = (keys.map fun k => if key r = k then val r else 0).sum +
            (keys.map fun k => ((rest.filter (fun x => key x == k)).map val).sum).sum :=
          sum_map_add_distrib _ _ keys
      _ = val r + (rest.map val).sum := by
          rw [sum_map_ite_zero (key r) (val r) keys hnd hr, ih hrest]
      _ = ((r :: rest).map val).sum := by
          rw [List.map_cons, List.sum_cons]

theorem sum_map_all_one {γ : Type} (f : γ → ℚ) :
    ∀ l : List γ, (∀ x ∈ l, f x = 1) → (l.map f).sum = (l.length : ℚ) := by
  intro l
  induction l with
  | nil => intro _; simp
  | cons a l ih =>
    intro h
    rw [List.map_cons, List.sum_cons, h a (List.mem_cons_self a l),
      ih (fun x hx => h x (List.mem_cons_of_mem a hx))]
    simp
    ring

theorem sum_map_all_zero {γ : Type} (f : γ → ℚ) :
    ∀ l : List γ, (∀ x ∈ l, f x = 0) → (l.map f).sum = 0 := by
  intro l
  induction l with
  | nil => intro _; simp
  | cons a l ih =>
    intro h
    rw [List.map_cons, List.sum_cons, h a (List.mem_cons_self a l),
      ih (fun x hx => h x (List.mem_cons_of_mem a hx)), zero_add]

theorem sum_map_all_one_nat {γ : Type} (f : γ → ℕ) :
    ∀ l : List γ, (∀ x ∈ l, f x = 1) → (l.map f).sum = l.length := by
  intro l
  induction l with
  | nil => intro _; rfl
  | cons a l ih =>
    intro h
    rw [List.map_cons, List.sum_cons, h a (List.mem_cons_self a l),
      ih (fun x hx => h x (List.mem_cons_of_mem a hx)), List.length_cons]
    omega

theorem nodup_filter_all_eq {γ : Type} (q : γ → Bool) (x : γ) :
    ∀ l : List γ, l.Nodup → x ∈ l → q x = true →
      (∀ y ∈ l, q y = true → y = x) → l.filter q = [x] := by
  intro l
  induction l with
  | nil => intro _ hx; cases hx
  | cons a l ih =>
    intro hnd hx hqx hall
    rcases List.nodup_cons.mp hnd with ⟨ha, hnd2⟩
    by_cases hqa : q a = true
    · have hax : a = x := hall a (List.mem_cons_self a l) hqa
      subst hax
      rw [List.filter_cons_of_pos hqa]
      have hz : ∀ y ∈ l, ¬ q y = true := by
        intro y hy hqy
        have := hall y (List.mem_cons_of_mem a hy) hqy
        subst this
        exact ha hy
      rw [List.filter_eq_nil_iff.mpr hz]
    · rw [List.filter_cons_of_neg hqa]
      have hx2 : x ∈ l := by
        rcases List.mem_cons.mp hx with rfl | h1
        · exact absurd hqx hqa
        · exact h1
      exact ih hnd2 hx2 hqx (fun y hy hqy => hall y (List.mem_cons_of_mem a hy) hqy)

theorem filter_map_eq_of_nodup {γ : Type} (f : String → γ) (key : γ → String)
    (hkf : ∀ v, key (f v) = v) :
    ∀ l : List String, l.Nodup → ∀ v ∈ l,
      (l.map f).filter (fun y => key y == v) = [f v] := by
  intro l
  induction l with
  | nil => intro _ v hv; cases hv
  | cons a l ih =>
    intro hnd v hv
    rcases List.nodup_cons.mp hnd with ⟨ha, hnd2⟩
    rw [List.map_cons]
    rcases List.mem_cons.mp hv with rfl | hv2
    · rw [List.filter_cons_of_pos (by simp [hkf])]
      have hz : ∀ y ∈ l.map f, ¬ (key y == v) = true := by
        intro y hy
        rcases List.mem_map.mp hy with ⟨w, hw, rfl⟩
        simp only [hkf, beq_iff_eq]
        rintro rfl
        exact ha hw
      rw [List.filter_eq_nil_iff.mpr hz]
    · rw [List.filter_cons_of_neg (by
        simp only [hkf, beq_iff_eq]
        rintro rfl
        exact ha hv2)]
      exact ih hnd2 v hv2

theorem mem_enhanceRows_of_mem_purchases_enhanced (t : PTable) (e : ERow)
    (he : e ∈ purchases_enhanced t) : e ∈ enhanceRows t := by
  rcases List.mem_flatMap.mp he with ⟨a, ha, hb⟩
  by_cases hm : ((productPairs (enhanceRows t)).filter
      (fun pr => pr.1 == a.row.product_name)).isEmpty
  · rw [if_pos hm] at hb
    rcases List.mem_singleton.mp hb with rfl
    exact ha
  · rw [if_neg hm] at hb
    rcases List.mem_map.mp hb with ⟨_, _, rfl⟩
    exact ha

/-- Claim C4 (amended): the top_vendors reconciliation holds whenever the
enriched table has at most 20 distinct vendor names: then the sum of the
TotalSales column over top_vendors equals the sum of
purchase_price_w_discount over all rows; with more than 20 vendors the
truncation to the top 20 rows drops vendor groups and the totals diverge. -/
theorem claim_C4_amended (rows : List ERow) (h : (vendorKeys rows).length ≤ 20) :
    ((top_vendors rows).map Prod.snd).sum = totalSales rows := by
  have hperm := List.mergeSort_perm
    ((vendorKeys rows).map (fun v => (v, vendorTotal rows v)))
    (fun a b => decide (b.2 ≤ a.2))
  have hlen : (((vendorKeys rows).map (fun v => (v, vendorTotal rows v))).mergeSort
      (fun a b => decide (b.2 ≤ a.2))).length ≤ 20 := by
    rw [hperm.length_eq, List.length_map]
    exact h
  unfold top_vendors
  rw [List.take_of_length_le hlen, (hperm.map Prod.snd).sum_eq, List.map_map]
  have hpart := sum_partition (vendorKeys rows) (fun e : ERow => e.row.vendor_name)
    (fun e : ERow => e.row.purchase_price_w_discount) (List.nodup_dedup _) rows
    (fun r hr => List.mem_dedup.mpr (List.mem_map_of_mem _ hr))
  exact hpart

/-- Witness for C4 (amended) at a one-vendor enriched table. -/
theorem claim_C4_witness :
    ((top_vendors rowsW4).map Prod.snd).sum = totalSales rowsW4 :=
  claim_C4_amended rowsW4 (by decide)

/-- Counterexample for C4 as stated: on an enriched table with 21 distinct
vendors each contributing one sale of 1, top_vendors keeps only 20 rows, so
its TotalSales column sums to 20 while purchase_price_w_discount over all
rows sums to 21. -/
theorem claim_C4_counterexample :
    ((top_vendors cxRows4).map Prod.snd).sum ≠ totalSales cxRows4 := by
  have hmapv : ∀ l : List String,
      (l.map mkVendorRow).map (fun e => e.row.vendor_name) = l := by
    intro l
    induction l with
    | nil => rfl
    | cons a l ih =>
      rw [List.map_cons, List.map_cons, ih]
      rfl
  have hkeys : vendorKeys cxRows4 = cxVendors := by
    show ((cxVendors.map mkVendorRow).map (fun e => e.row.vendor_name)).dedup = cxVendors
    rw [hmapv]
    exact List.dedup_eq_self.mpr (by decide)
  have hsnd : ∀ x ∈ (vendorKeys cxRows4).map (fun v => (v, vendorTotal cxRows4 v)),
      x.2 = (1 : ℚ) := by
    intro x hx
    rcases List.mem_map.mp hx with ⟨v, hv, rfl⟩
    have hv2 : v ∈ cxVendors := hkeys ▸ hv
    have hfil := filter_map_eq_of_nodup mkVendorRow (fun e => e.row.vendor_name)
      (fun _ => rfl) cxVendors (by decide) v hv2
    show vendorTotal cxRows4 v = 1
    unfold vendorTotal
    rw [show cxRows4 = cxVendors.map mkVendorRow from rfl, hfil]
    simp [mkVendorRow, addDerived]
  have hperm := List.mergeSort_perm
    ((vendorKeys cxRows4).map (fun v => (v, vendorTotal cxRows4 v)))
    (fun a b => decide (b.2 ≤ a.2))
  have hlen21 : ((vendorKeys cxRows4).map
      (fun v => (v, vendorTotal cxRows4 v))).length = 21 := by
    rw [List.length_map, hkeys]
    rfl
  have htake : ∀ x ∈ (((vendorKeys cxRows4).map
      (fun v => (v, vendorTotal cxRows4 v))).mergeSort
        (fun a b => decide (b.2 ≤ a.2))).take 20, Prod.snd x = (1 : ℚ) :=
    fun x hx => hsnd x (hperm.mem_iff.mp (List.mem_of_mem_take hx))
  have hlentake : ((((vendorKeys cxRows4).map
      (fun v => (v, vendorTotal cxRows4 v))).mergeSort
        (fun a b => decide (b.2 ≤ a.2))).take 20).length = 20 := by
    rw [List.length_take, hperm.length_eq, hlen21]
    decide
  have h20 : ((top_vendors cxRows4).map Prod.snd).sum = 20 := by
    unfold top_vendors
    rw [sum_map_all_one Prod.snd _ htake, hlentake]
    norm_num
  have h21 : totalSales cxRows4 = 21 := by
    have hone : ∀ e ∈ cxRows4, (fun e : ERow => e.row.purchase_price_w_discount) e = 1 := by
      intro e he
      rcases List.mem_map.mp he with ⟨v, _, rfl⟩
      rfl
    unfold totalSales
    rw [sum_map_all_one _ cxRows4 hone]
    rw [show cxRows4.length = 21 by rw [show cxRows4 = cxVendors.map mkVendorRow from rfl, List.length_map]; rfl]
    norm_num
  rw [h20, h21]
  norm_num

/-- Claim C10: when every product name occurs under exactly one vendor, the
product-rank left merge keyed on product_name alone is one-to-one and the
enriched table has exactly one row per input row; but when one product name
appears under two distinct vendors, the merge matches each such row against
both (product, vendor) groups, and the enriched table has more rows than
the input (4 output rows for the 2-row fixture). -/
theorem claim_C10 (t : PTable)
    (h : ∀ r ∈ t.rows, ∀ s ∈ t.rows,
      r.product_name = s.product_name → r.vendor_name = s.vendor_name) :
    (purchases_enhanced t).length = t.rows.length ∧
    (purchases_enhanced cxTableC10).length = 4 ∧ cxTableC10.rows.length = 2 := by
  refine ⟨?_, by decide, rfl⟩
  have hcnt : ∀ e ∈ enhanceRows t,
      ((productPairs (enhanceRows t)).filter
        (fun pr => pr.1 == e.row.product_name)).length = 1 := by
    intro e he
    have hmem : (e.row.product_name, e.row.vendor_name) ∈ productPairs (enhanceRows t) :=
      List.mem_dedup.mpr (List.mem_map_of_mem _ he)
    have hnd : (productPairs (enhanceRows t)).Nodup := List.nodup_dedup _
    have hall : ∀ y ∈ productPairs (enhanceRows t),
        (y.1 == e.row.product_name) = true →
          y = (e.row.product_name, e.row.vendor_name) := by
      intro y hy hq
      rcases List.mem_map.mp (List.mem_dedup.mp hy) with ⟨e2, he2, rfl⟩
      rcases List.mem_map.mp he2 with ⟨r2, hr2, rfl⟩
      rcases List.mem_map.mp he with ⟨r1, hr1, rfl⟩
      have h1 : r2.product_name = r1.product_name := by
        simpa [addDerived_row] using hq
      have h2 : r2.vendor_name = r1.vendor_name := h r2 hr2 r1 hr1 h1
      simp [addDerived_row, h1, h2]
    have hfil := nodup_filter_all_eq _ _ _ hnd hmem (by simp) hall
    rw [hfil]
    rfl
  unfold purchases_enhanced
  rw [List.length_flatMap]
  rw [sum_map_all_one_nat _ (enhanceRows t) ?_, enhanceRows, List.length_map]
  intro e he
  have h1 := hcnt e he
  simp only [Function.comp]
  have hne : ((productPairs (enhanceRows t)).filter
      (fun pr => pr.1 == e.row.product_name)).isEmpty = false := by
    cases hm : (productPairs (enhanceRows t)).filter
        (fun pr => pr.1 == e.row.product_name) with
    | nil => rw [hm] at h1; simp at h1
    | cons a l => rfl
  rw [if_neg (by simp [hne]), List.length_map]
  exact h1

/-- Witness for C10 at a table whose products each belong to one vendor. -/
theorem claim_C10_witness :
    (purchases_enhanced tableW10).length = tableW10.rows.length :=
  (claim_C10 tableW10 (by decide)).1

/-- Counterexample for C5 as stated: for an input whose purchases table has
no unit-cost column, the exported kpis table still has all seven metrics
(the pipeline always adds a zero Profit column, so the profit block is
always appended), not exactly the five baseline metrics. -/
theorem claim_C5_counterexample :
    tableNoCost.hasUnitCost = false ∧
    (pipelineKpis tableNoCost).map Prod.fst =
      ["Total Sales", "Total Transactions", "Average Basket", "Total Customers",
       "Total Vendors", "Total Profit", "Profit Margin"] ∧
    (pipelineKpis tableNoCost).length = 7 := by
  refine ⟨rfl, by decide, by decide⟩

/-- Claim C5 (amended): the kpis summary contains the five baseline metrics
and the two profit metrics exactly when the input dataframe has a Profit
column; since create_enhanced_datasets always adds a Profit column (zero
valued when unit_cost is absent), the exported kpis table always has the
seven metrics, and for a table without unit_cost the Total Profit value
is 0. -/
theorem claim_C5_amended (t : PTable) (h : t.hasUnitCost = false) :
    (pipelineKpis t).map Prod.fst =
      ["Total Sales", "Total Transactions", "Average Basket", "Total Customers",
       "Total Vendors", "Total Profit", "Profit Margin"] ∧
    (kpis false (purchases_enhanced t)).map Prod.fst =
      ["Total Sales", "Total Transactions", "Average Basket", "Total Customers",
       "Total Vendors"] ∧
    totalProfit (purchases_enhanced t) = 0 := by
  refine ⟨by simp [pipelineKpis, kpis, kpiBase], by simp [kpis, kpiBase], ?_⟩
  have hz : ∀ e ∈ purchases_enhanced t, (fun e : ERow => e.Profit) e = 0 := by
    intro e he
    have he2 := mem_enhanceRows_of_mem_purchases_enhanced t e he
    rcases List.mem_map.mp he2 with ⟨r, hr, rfl⟩
    simp [addDerived, h]
  exact sum_map_all_zero _ _ hz

/-- Witness for C5 (amended) at the concrete no-unit-cost table. -/
theorem claim_C5_witness :
    totalProfit (purchases_enhanced tableNoCost) = 0 :=
  (claim_C5_amended tableNoCost rfl).2.2

/-- Counterexample for C6 as stated: for a run with empty check-ins and no
location column, the files_exported list of the metadata record keeps null
placeholders for the two skipped files instead of omitting them, so the
list is not a list of only written filenames. -/
theorem claim_C6_counterexample :
    Option.none ∈ (export_metadata 0 tableNoCost []).files ∧
    (export_metadata 0 tableNoCost []).files.length = 10 := by
  exact ⟨by decide, by decide⟩

/-- Claim C6 (amended): the metadata record contains the export timestamp,
the purchase and check-in row counts and the min and max purchase
timestamps; its files_exported list keeps a null placeholder for every
skipped file (empty check-ins, missing location column) instead of
omitting it, and its non-null entries are exactly the filenames actually
written, in write order. -/
theorem claim_C6_amended (now : ℤ) (t : PTable) (cs : List CRow) :
    (export_metadata now t cs).export_timestamp = now ∧
    (export_metadata now t cs).purchases_count = (purchases_enhanced t).length ∧
    (export_metadata now t cs).checkins_count = (create_enhanced_checkins cs).length ∧
    (export_metadata now t cs).date_start =
      ((purchases_enhanced t).map (fun e => e.row.purchase_date)).min?.getD 0 ∧
    (export_metadata now t cs).date_end =
      ((purchases_enhanced t).map (fun e => e.row.purchase_date)).max?.getD 0 ∧
    (export_metadata now t cs).files.filterMap id =
      writtenFiles cs.isEmpty t.hasLocation ∧
    (cs.isEmpty = true → Option.none ∈ (export_metadata now t cs).files) ∧
    (t.hasLocation = false → Option.none ∈ (export_metadata now t cs).files) := by
  refine ⟨rfl, rfl, ?_, rfl, rfl, ?_, ?_, ?_⟩
  · cases cs <;> rfl
  · cases hcs : cs.isEmpty <;> cases hl : t.hasLocation <;>
      simp [export_metadata, files_exported, writtenFiles, hcs, hl]
  · intro h
    simp [export_metadata, files_exported, h]
  · intro h
    simp [export_metadata, files_exported, h]

/-- Witness for C6 (amended): an empty check-ins run leaves a null entry. -/
theorem claim_C6_witness :
    Option.none ∈ (export_metadata 5 tableW1 []).files :=
  (claim_C6_amended 5 tableW1 []).2.2.2.2.2.2.1 rfl

/-! Helper lemmas about find?. -/

theorem find?_decomp {γ : Type} (p : γ → Bool) :
    ∀ l : List γ, ∀ x, l.find? p = some x →
      ∃ pre post, l = pre ++ x :: post ∧ p x = true ∧ ∀ y ∈ pre, p y = false := by
  intro l
  induction l with
  | nil => intro x h; simp at h
  | cons a l ih =>
    intro x h
    by_cases ha : p a = true
    · rw [List.find?_cons_of_pos l ha] at h
      injection h with h2
      subst h2
      exact ⟨[], l, rfl, ha, by intro y hy; cases hy⟩
    · rw [List.find?_cons_of_neg l ha] at h
      obtain ⟨pre, post, hl, hx, hpre⟩ := ih x h
      refine ⟨a :: pre, post, by rw [List.cons_append, hl], hx, ?_⟩
      intro y hy
      rcases List.mem_cons.mp hy with rfl | hy2
      · simpa using ha
      · exact hpre y hy2

theorem first_match_spec {γ : Type} (p : γ → Bool) (l : List γ) :
    ((∃ s ∈ l, p s = true) → ∃ pre s post, l = pre ++ s :: post ∧ p s = true ∧
      (∀ y ∈ pre, p y = false) ∧ l.find? p = some s) ∧
    ((∀ s ∈ l, p s = false) → l.find? p = none) := by
  constructor
  · rintro ⟨s, hs, hps⟩
    cases hf : l.find? p with
    | none => exact absurd hps (by simpa using List.find?_eq_none.mp hf s hs)
    | some x =>
      obtain ⟨pre, post, h1, h2, h3⟩ := find?_decomp p l x hf
      exact ⟨pre, x, post, h1, h2, h3, rfl⟩
  · intro hall
    exact List.find?_eq_none.mpr (fun x hx => by simp [hall x hx])

/-- Claim C8: for every non-empty workbook, sheet selection takes the first
sheet whose lowered name contains purchase as the purchases table, falling
back to the first sheet of the workbook when none matches; the first sheet
whose lowered name contains checkin becomes the check-ins table, an
explicit empty table (no columns, no rows) when none matches, in which
case the enhanced check-ins table is empty and no check-in file is written
or listed. -/
theorem claim_C8 (wb : List (String × Table)) (hne : wb ≠ []) :
    ∃ pt ct, select_sheets wb = some (pt, ct) ∧
      ((∃ s ∈ wb, containsCI "purchase" s.1 = true) →
        ∃ pre s post, wb = pre ++ s :: post ∧ containsCI "purchase" s.1 = true ∧
          (∀ y ∈ pre, containsCI "purchase" y.1 = false) ∧ pt = s.2) ∧
      ((∀ s ∈ wb, containsCI "purchase" s.1 = false) → pt = (wb.head hne).2) ∧
      ((∃ s ∈ wb, containsCI "checkin" s.1 = true) →
        ∃ pre s post, wb = pre ++ s :: post ∧ containsCI "checkin" s.1 = true ∧
          (∀ y ∈ pre, containsCI "checkin" y.1 = false) ∧ ct = s.2) ∧
      ((∀ s ∈ wb, containsCI "checkin" s.1 = false) →
        ct = ⟨[]⟩ ∧ create_enhanced_checkins [] = [] ∧
        ∀ b : Bool, "checkins_enhanced.csv" ∉ writtenFiles true b ∧
          "checkins_enhanced.csv" ∉ (files_exported true b).filterMap id) := by
  cases hpf : wb.find? (fun s => containsCI "purchase" s.1) with
  | some sp =>
    have hpex : ∀ h : (∃ s ∈ wb, containsCI "purchase" s.1 = true),
        ∃ pre s post, wb = pre ++ s :: post ∧ containsCI "purchase" s.1 = true ∧
          (∀ y ∈ pre, containsCI "purchase" y.1 = false) ∧ sp.2 = s.2 := by
      intro hex
      obtain ⟨pre, s, post, h1, h2, h3, h4⟩ := (first_match_spec _ wb).1 hex
      rw [hpf] at h4
      injection h4 with h5
      exact ⟨pre, s, post, h1, h2, h3, congrArg Prod.snd h5⟩
    have hpall : (∀ s ∈ wb, containsCI "purchase" s.1 = false) → False := by
      intro hall
      have := (first_match_spec (fun s => containsCI "purchase" s.1) wb).2 hall
      rw [hpf] at this
      exact Option.noConfusion this
    cases hcf : wb.find? (fun s => containsCI "checkin" s.1) with
    | some sc =>
      refine ⟨sp.2, sc.2, by simp [select_sheets, hpf, hcf], hpex, ?_, ?_, ?_⟩
      · intro hall; exact (hpall hall).elim
      · intro hex
        obtain ⟨pre, s, post, h1, h2, h3, h4⟩ := (first_match_spec _ wb).1 hex
        rw [hcf] at h4
        injection h4 with h5
        exact ⟨pre, s, post, h1, h2, h3, congrArg Prod.snd h5⟩
      · intro hall
        have := (first_match_spec (fun s => containsCI "checkin" s.1) wb).2 hall
        rw [hcf] at this
        exact Option.noConfusion this
    | none =>
      refine ⟨sp.2, ⟨[]⟩, by simp [select_sheets, hpf, hcf], hpex, ?_, ?_, ?_⟩
      · intro hall; exact (hpall hall).elim
      · intro hex
        obtain ⟨pre, s, post, h1, h2, h3, h4⟩ := (first_match_spec _ wb).1 hex
        rw [hcf] at h4
        exact Option.noConfusion h4
      · intro _
        exact ⟨rfl, rfl, fun b => by cases b <;> exact ⟨by decide, by decide⟩⟩
  | none =>
    cases wb with
    | nil => exact absurd rfl hne
    | cons first rest =>
      have hpex : (∃ s ∈ first :: rest, containsCI "purchase" s.1 = true) → False := by
        intro hex
        obtain ⟨pre, s, post, h1, h2, h3, h4⟩ := (first_match_spec _ (first :: rest)).1 hex
        rw [hpf] at h4
        exact Option.noConfusion h4
      cases hcf : (first :: rest).find? (fun s => containsCI "checkin" s.1) with
      | some sc =>
        refine ⟨first.2, sc.2, by simp [select_sheets, hpf, hcf], ?_, ?_, ?_, ?_⟩
        · intro hex; exact (hpex hex).elim
        · intro _; rfl
        · intro hex
          obtain ⟨pre, s, post, h1, h2, h3, h4⟩ :=
            (first_match_spec _ (first :: rest)).1 hex
          rw [hcf] at h4
          injection h4 with h5
          exact ⟨pre, s, post, h1, h2, h3, congrArg Prod.snd h5⟩
        · intro hall
          have := (first_match_spec (fun s => containsCI "checkin" s.1) (first :: rest)).2 hall
          rw [hcf] at this
          exact Option.noConfusion this
      | none =>
        refine ⟨first.2, ⟨[]⟩, by simp [select_sheets, hpf, hcf], ?_, ?_, ?_, ?_⟩
        · intro hex; exact (hpex hex).elim
        · intro _; rfl
        · intro hex
          obtain ⟨pre, s, post, h1, h2, h3, h4⟩ :=
            (first_match_spec _ (first :: rest)).1 hex
          rw [hcf] at h4
          exact Option.noConfusion h4
        · intro _
          exact ⟨rfl, rfl, fun b => by cases b <;> exact ⟨by decide, by decide⟩⟩

/-- Witness for C8 at a concrete two-sheet workbook. -/
theorem claim_C8_witness : wbW ≠ [] ∧ (select_sheets wbW).isSome = true := by
  refine ⟨by decide, ?_⟩
  obtain ⟨pt, ct, h, _⟩ := claim_C8 wbW (by decide)
  rw [h]
  rfl

/-- Counterexample for C9 as stated: on the SharePoint path, a successful
fetch whose workbook cannot be parsed does not degrade to a single
purchases sheet; the generic exception handler re-raises it as the same
FileNotFoundError used for fetch failures, so the run fails. -/
theorem claim_C9_counterexample :
    load_data_from_sharepoint (FetchOutcome.fetched none) =
      Except.error (LoadError.sourceUnavailable "Error processing SharePoint file") := rfl

/-- Claim C9 (amended): loading raises the distinct FileNotFoundError when
the remote fetch fails or the local file is missing at both candidate
paths; a local workbook that cannot be parsed as a multi-sheet workbook
degrades to treating the file as one purchases sheet with empty check-ins;
but on the SharePoint path the same parse failure is re-raised as the
FileNotFoundError instead of degrading, and a failing local fallback read
propagates as an ordinary exception. -/
theorem claim_C9_amended (gE : Bool) (pm : Option (List (String × Table)))
    (ps : Option Table) (df : Table) (hps : ps = some df) :
    load_data_local false false pm ps =
      Except.error (LoadError.sourceUnavailable "Data file not found") ∧
    load_data_from_sharepoint FetchOutcome.failed =
      Except.error (LoadError.sourceUnavailable "Unable to download file from SharePoint") ∧
    load_data_local true gE none ps = Except.ok (df, ⟨[]⟩) ∧
    load_data_local true gE (some []) ps = Except.ok (df, ⟨[]⟩) ∧
    load_data_from_sharepoint (FetchOutcome.fetched none) =
      Except.error (LoadError.sourceUnavailable "Error processing SharePoint file") ∧
    load_data_from_sharepoint (FetchOutcome.fetched (some [])) =
      Except.error (LoadError.sourceUnavailable "Error processing SharePoint file") ∧
    load_data_local true gE none none =
      Except.error (LoadError.other "fallback read failed") := by
  subst hps
  refine ⟨?_, rfl, ?_, ?_, rfl, rfl, ?_⟩
  · simp [load_data_local]
  · simp [load_data_local]
  · simp [load_data_local, select_sheets]
  · simp [load_data_local]

/-- Witness for C9 (amended) at concrete parse outcomes. -/
theorem claim_C9_witness :
    load_data_local true false none (some (⟨[]⟩ : Table)) =
      Except.ok ((⟨[]⟩ : Table), (⟨[]⟩ : Table)) :=
  (claim_C9_amended false none (some ⟨[]⟩) ⟨[]⟩ rfl).2.2.1

end Retail
